import Mathlib

/-!
Verification development for the Heidi CLI UI run-execution monitor.

The definitions below are a shallow embedding of the monitor code:
the SSE wire codec and controller logic of `Chat.tsx` (`startStreaming`,
`startPolling`, `handleStart`, `handleStop`, `loadRun`) and the HTTP API
layer of `api/heidi.ts` (`startRun`, `startLoop`, `cancelRun`,
`getStreamUrl`, `getHeaders`).  Byte streams are modelled at the character
level (the code's `TextDecoder(..., {stream:true})` already reassembles
UTF-8 sequences that straddle chunk boundaries) and JSON parsing of a
`data:` payload is abstracted as an arbitrary function
`parse : List Char → Option RunEvent`, since the claims under study do not
depend on the concrete JSON grammar.
-/

namespace HeidiSpec

/-! ## Wire codec (Chat.tsx `startStreaming` read loop)

The loop keeps a string `buffer`, appends each decoded chunk, splits on
the double-newline record delimiter (`buffer.split('\n\n')`), pops the
last (possibly incomplete) part back into `buffer`, and processes every
complete part. -/

/-- One step of the cons case of the leftmost split: prepend the character
`c` to the first part of an already-split suffix (mirrors how
`split('\n\n')` extends the current part when no delimiter starts at `c`). -/
def consPart (c : Char) : List (List Char) × List Char → List (List Char) × List Char
  | ([], t) => ([], c :: t)
  | (p :: ps, t) => ((c :: p) :: ps, t)

/-- Model of JavaScript `s.split('\n\n')` followed by `parts.pop()`:
returns the list of complete parts (all parts but the last) and the last
part (the residual kept in `buffer`).  The split is leftmost and
non-overlapping, exactly as `String.prototype.split` with a string
separator. -/
def splitNN1 : List Char → List (List Char) × List Char
  | [] => ([], [])
  | [c] => ([], [c])
  | c :: d :: rest =>
    if c = '\n' ∧ d = '\n' then
      ([] :: (splitNN1 rest).1, (splitNN1 rest).2)
    else
      consPart c (splitNN1 (d :: rest))

/-- Feeding a sequence of chunks through the read loop: for each chunk the
buffer is extended, split on the delimiter, the final part is kept as the
new buffer, and the complete parts are emitted in order.  Returns the
emitted records and the final buffer (which the code discards when the
stream ends). -/
def feedAll : List Char → List (List Char) → List (List Char) × List Char
  | buf, [] => ([], buf)
  | buf, ch :: chs =>
    let r := splitNN1 (buf ++ ch)
    let rest := feedAll r.2 chs
    (r.1 ++ rest.1, rest.2)

/-- Custom induction principle following the recursion pattern of
`splitNN1` (cases `[]`, `[c]`, `c :: d :: rest`, with hypotheses for both
`rest` and `d :: rest`). -/
theorem splitNN1_induction (P : List Char → Prop) (h0 : P [])
    (h1 : ∀ c, P [c])
    (h2 : ∀ c d rest, P rest → P (d :: rest) → P (c :: d :: rest)) :
    ∀ s, P s := by
  have key : ∀ n (s : List Char), s.length ≤ n → P s := by
    intro n
    induction n with
    | zero =>
      intro s hs
      cases s with
      | nil => exact h0
      | cons c t => simp at hs
    | succ n ih =>
      intro s hs
      match s with
      | [] => exact h0
      | [c] => exact h1 c
      | c :: d :: rest =>
        have hr : rest.length ≤ n := by
          simp only [List.length_cons] at hs; omega
        have hdr : (d :: rest).length ≤ n := by
          simp only [List.length_cons] at hs ⊢; omega
        exact h2 c d rest (ih rest hr) (ih (d :: rest) hdr)
  exact fun s => key s.length s le_rfl

theorem splitNN1_nil : splitNN1 [] = ([], []) := rfl

theorem splitNN1_single (c : Char) : splitNN1 [c] = ([], [c]) := rfl

theorem splitNN1_cons₂ (c d : Char) (rest : List Char) :
    splitNN1 (c :: d :: rest) =
      if c = '\n' ∧ d = '\n' then
        ([] :: (splitNN1 rest).1, (splitNN1 rest).2)
      else
        consPart c (splitNN1 (d :: rest)) := by
  rw [splitNN1]

theorem splitNN1_cons₂_delim (c d : Char) (rest : List Char) (h : c = '\n' ∧ d = '\n') :
    splitNN1 (c :: d :: rest) = ([] :: (splitNN1 rest).1, (splitNN1 rest).2) := by
  rw [splitNN1_cons₂, if_pos h]

theorem splitNN1_cons₂_plain (c d : Char) (rest : List Char) (h : ¬(c = '\n' ∧ d = '\n')) :
    splitNN1 (c :: d :: rest) = consPart c (splitNN1 (d :: rest)) := by
  rw [splitNN1_cons₂, if_neg h]

theorem consPart_none (c : Char) (t : List Char) : consPart c ([], t) = ([], c :: t) := rfl

theorem consPart_some (c : Char) (p : List Char) (ps : List (List Char)) (t : List Char) :
    consPart c (p :: ps, t) = ((c :: p) :: ps, t) := rfl

/-- When the split produces no complete part, the residual is the whole
input. -/
theorem splitNN1_no_part_residual :
    ∀ s : List Char, (splitNN1 s).1 = [] → (splitNN1 s).2 = s := by
  refine splitNN1_induction _ (by simp [splitNN1_nil]) (by simp [splitNN1_single]) ?_
  intro c d rest _ ihdr h
  rw [splitNN1_cons₂] at h ⊢
  by_cases hcd : c = '\n' ∧ d = '\n'
  · simp [hcd] at h
  · simp only [if_neg hcd] at h ⊢
    rcases hr : splitNN1 (d :: rest) with ⟨l, t⟩
    cases l with
    | nil =>
      have ht : t = d :: rest := by
        have := ihdr (by rw [hr])
        rwa [hr] at this
      simp [hr, consPart, ht]
    | cons p ps => simp [hr, consPart] at h

/-- The residual left by the split contains no delimiter: splitting it
again produces no complete part.  This is the invariant maintained by the
read loop's buffer between chunks. -/
theorem splitNN1_residual_closed :
    ∀ s : List Char, (splitNN1 ((splitNN1 s).2)).1 = [] := by
  refine splitNN1_induction _ (by simp [splitNN1_nil]) (by simp [splitNN1_single]) ?_
  intro c d rest ihr ihdr
  rw [splitNN1_cons₂]
  by_cases hcd : c = '\n' ∧ d = '\n'
  · simpa [hcd] using ihr
  · simp only [if_neg hcd]
    rcases hr : splitNN1 (d :: rest) with ⟨l, t⟩
    cases l with
    | nil =>
      have ht : t = d :: rest := by
        have := splitNN1_no_part_residual (d :: rest) (by rw [hr])
        rwa [hr] at this
      simp only [consPart, ht]
      rw [splitNN1_cons₂, if_neg hcd, hr, ht, consPart]
    | cons p ps =>
      simpa [consPart, hr] using ihdr

/-- Compositionality of the leftmost split: splitting `a ++ b` is the same
as splitting `a`, keeping its complete parts, and re-splitting the
residual of `a` extended by `b`. -/
theorem splitNN1_append :
    ∀ a b : List Char,
      splitNN1 (a ++ b) =
        ((splitNN1 a).1 ++ (splitNN1 ((splitNN1 a).2 ++ b)).1,
         (splitNN1 ((splitNN1 a).2 ++ b)).2) := by
  refine splitNN1_induction
    (fun a => ∀ b, splitNN1 (a ++ b) =
        ((splitNN1 a).1 ++ (splitNN1 ((splitNN1 a).2 ++ b)).1,
         (splitNN1 ((splitNN1 a).2 ++ b)).2)) ?_ ?_ ?_
  · intro b; simp [splitNN1_nil]
  · intro c b; simp [splitNN1_single]
  · intro c d rest ihr ihdr b
    by_cases hcd : c = '\n' ∧ d = '\n'
    · have hl : ((c :: d :: rest) ++ b) = c :: d :: (rest ++ b) := by simp
      rw [hl, splitNN1_cons₂_delim c d _ hcd, splitNN1_cons₂_delim c d _ hcd]
      rw [ihr b]
      simp
    · rcases hr : splitNN1 (d :: rest) with ⟨l, t⟩
      cases l with
      | nil =>
        have ht : t = d :: rest := by
          have := splitNN1_no_part_residual (d :: rest) (by rw [hr])
          rwa [hr] at this
        have ha : splitNN1 (c :: d :: rest) = ([], c :: d :: rest) := by
          rw [splitNN1_cons₂_plain c d _ hcd, hr, consPart_none, ht]
        rw [ha]
        simp only [List.nil_append, List.cons_append]
      | cons p ps =>
        have ht : splitNN1 (c :: d :: rest) = ((c :: p) :: ps, t) := by
          rw [splitNN1_cons₂_plain c d _ hcd, hr, consPart_some]
        have hdr : splitNN1 (d :: (rest ++ b)) =
            (p :: (ps ++ (splitNN1 (t ++ b)).1), (splitNN1 (t ++ b)).2) := by
          have := ihdr b
          rw [hr] at this
          simpa [List.cons_append] using this
        have hl : ((c :: d :: rest) ++ b) = c :: d :: (rest ++ b) := by simp
        rw [hl, splitNN1_cons₂_plain c d _ hcd, hdr, consPart_some, ht]
        simp [List.cons_append]

/-- Feeding chunks one at a time, starting from a delimiter-free buffer,
emits the same records and leaves the same final buffer as splitting the
buffer extended by the whole concatenated stream. -/
theorem feedAll_eq_splitNN1 :
    ∀ (chunks : List (List Char)) (buf : List Char),
      (splitNN1 buf).1 = [] →
      feedAll buf chunks = splitNN1 (buf ++ chunks.flatten) := by
  intro chunks
  induction chunks with
  | nil =>
    intro buf h
    have hres := splitNN1_no_part_residual buf h
    show ([], buf) = splitNN1 (buf ++ List.flatten [])
    rw [show List.flatten ([] : List (List Char)) = [] from rfl, List.append_nil]
    exact Prod.ext_iff.mpr ⟨h.symm, hres.symm⟩
  | cons ch chs ih =>
    intro buf _
    have hresid := splitNN1_residual_closed (buf ++ ch)
    have hih := ih ((splitNN1 (buf ++ ch)).2) hresid
    have happ := splitNN1_append (buf ++ ch) chs.flatten
    show ((splitNN1 (buf ++ ch)).1 ++ (feedAll (splitNN1 (buf ++ ch)).2 chs).1,
          (feedAll (splitNN1 (buf ++ ch)).2 chs).2) = _
    rw [hih, List.flatten_cons, ← List.append_assoc, happ]

/-! ## Record decoding (Chat.tsx `startStreaming` part/line handling)

For each complete part the code splits on `'\n'`, trims each line, keeps
lines starting with `data:`, strips the marker and at most one following
whitespace character (`replace(/^data:\s?/, '')`), skips empty payloads,
and hands the payload to `JSON.parse`; a parse failure is logged and
skipped. -/

/-- Model of JavaScript `part.split('\n')`. -/
def splitLF : List Char → List (List Char)
  | [] => [[]]
  | c :: rest =>
    if c = '\n' then [] :: splitLF rest
    else
      match splitLF rest with
      | [] => [[c]]
      | l :: ls => (c :: l) :: ls

/-- Model of JavaScript `String.prototype.trim` on a line. -/
def jsTrim (l : List Char) : List Char :=
  (((l.dropWhile Char.isWhitespace).reverse).dropWhile Char.isWhitespace).reverse

/-- `trimmed.startsWith('data:')`: returns the text after the marker, or
`none` when the line does not start with the marker. -/
def stripDataMark : List Char → Option (List Char)
  | 'd' :: 'a' :: 't' :: 'a' :: ':' :: rest => some rest
  | _ => none

/-- The `\s?` of `replace(/^data:\s?/, '')`: drop at most one whitespace
character after the marker. -/
def jsonStrOf (rest : List Char) : List Char :=
  match rest with
  | c :: r => if c.isWhitespace then r else rest
  | [] => []

/-- One decoded stream event, the `RunEvent` of `types.ts`
(`{type, message, ts, details?}`); the free-form JSON `details` payload is
kept as an opaque optional string. -/
structure RunEvent where
  type : String
  message : String
  ts : String
  details : Option String
deriving DecidableEq, Repr

/-- Events contributed by one line of a record: nothing unless the trimmed
line carries a `data:` marker with a non-empty payload that parses. -/
def lineEvents (parse : List Char → Option RunEvent) (line : List Char) : List RunEvent :=
  match stripDataMark (jsTrim line) with
  | none => []
  | some rest =>
    let j := jsonStrOf rest
    if j = [] then [] else (parse j).toList

/-- Events decoded from one complete record (one part between blank-line
delimiters). -/
def recordEvents (parse : List Char → Option RunEvent) (part : List Char) : List RunEvent :=
  ((splitLF part).map (lineEvents parse)).flatten

/-- Events decoded from a sequence of complete records, in order. -/
def streamEvents (parse : List Char → Option RunEvent)
    (records : List (List Char)) : List RunEvent :=
  (records.map (recordEvents parse)).flatten

/-- A line on which the decoder emits nothing: no `data:` marker, an empty
payload, or a payload the JSON parser rejects. -/
def lineFailsB (parse : List Char → Option RunEvent) (line : List Char) : Bool :=
  match stripDataMark (jsTrim line) with
  | none => true
  | some rest => (jsonStrOf rest).isEmpty || (parse (jsonStrOf rest)).isNone

/-! ## Transcript reconciliation and controller state (Chat.tsx) -/

/-- The dedup guard of the `setTranscript` callback in `startStreaming`:
`data.type === 'user_prompt' && prev.some(e => e.type === 'user_prompt' &&
e.message === data.message)`. -/
def dupB (prev : List RunEvent) (ev : RunEvent) : Bool :=
  ev.type == "user_prompt" &&
    prev.any (fun e => e.type == "user_prompt" && e.message == ev.message)

/-- Stream-mode reconciliation (`setTranscript` callback in
`startStreaming`): append the decoded event, except that a `user_prompt`
event whose message already occurs on a `user_prompt` entry of the
transcript is dropped. -/
def reconcileStream (prev : List RunEvent) (ev : RunEvent) : List RunEvent :=
  if dupB prev ev then prev else prev ++ [ev]

/-- Applying a whole sequence of decoded stream events to a transcript. -/
def foldTranscript (init : List RunEvent) (evs : List RunEvent) : List RunEvent :=
  evs.foldl reconcileStream init

/-- The sub-sequence of incoming events that reconciliation actually
appends (in order), given the transcript so far. -/
def streamAppends (trans : List RunEvent) : List RunEvent → List RunEvent
  | [] => []
  | ev :: rest =>
    if dupB trans ev then streamAppends trans rest
    else ev :: streamAppends (trans ++ [ev]) rest

/-- Number of `user_prompt` entries carrying message `m`. -/
def countUP (m : String) (l : List RunEvent) : Nat :=
  (l.filter (fun e => e.type == "user_prompt" && e.message == m)).length

/-- Observable state of the run monitor: the React state of `Chat.tsx`
plus the two connection handles (`abortControllerRef` non-null ↦
`streamOpen`, `pollingRef` non-null ↦ `pollOpen`). -/
structure MonitorState where
  runId : Option String
  status : String
  transcript : List RunEvent
  result : Option String
  error : Option String
  isCancelling : Bool
  streamOpen : Bool
  pollOpen : Bool
deriving DecidableEq, Repr

/-- One reconciliation step for a decoded stream event: the transcript is
reconciled and a `status` event updates the coarse status.  The code
changes neither connection handle here. -/
def streamDataStep (s : MonitorState) (ev : RunEvent) : MonitorState :=
  { s with transcript := reconcileStream s.transcript ev,
           status := if ev.type == "status" then ev.message else s.status }

/-- JavaScript truthiness of an optional string: `undefined`/`null` and
`''` are falsy. -/
def strTruthy : Option String → Option String
  | some "" => none
  | some s => some s
  | none => none

/-- JavaScript `a || b` on optional strings. -/
def jsOrStr (a b : Option String) : Option String :=
  match strTruthy a with
  | some s => some s
  | none => strTruthy b

/-- JavaScript `a || dflt` with a string literal default. -/
def jsOrDefault (a : Option String) (dflt : String) : String :=
  match strTruthy a with
  | some s => s
  | none => dflt

/-- JavaScript `if (x)` on an optional string. -/
def isTruthyStr : Option String → Bool
  | some s => !(s == "")
  | none => false

/-- The `meta` object of a fetched run snapshot (`RunDetails.meta` of
`types.ts`); only the fields the monitor reads are modelled, each
optional because the code reads them with `?.` / `||` guards. -/
structure RunMeta where
  status : Option String
  prompt : Option String
  task : Option String
  created_at : Option String
deriving DecidableEq, Repr

/-- A fetched run snapshot (`RunDetails` of `types.ts`). -/
structure RunDetails where
  run_id : String
  meta : Option RunMeta
  events : Option (List RunEvent)
  result : Option String
  error : Option String
deriving DecidableEq, Repr

/-- `details.meta?.prompt || details.meta?.task`. -/
def metaUserMsg (d : RunDetails) : Option String :=
  jsOrStr (d.meta.bind RunMeta.prompt) (d.meta.bind RunMeta.task)

/-- The event list a poll tick (or `loadRun`) installs: the snapshot's
events wholesale, with a `user_prompt` entry synthesized and prepended
when the snapshot has none and the metadata carries the original
prompt/task text; its timestamp is `meta.created_at || now`. -/
def pollEvents (d : RunDetails) (now : String) : List RunEvent :=
  let events := d.events.getD []
  match metaUserMsg d with
  | some m =>
    if events.any (fun e => e.type == "user_prompt") then events
    else ⟨"user_prompt", m, jsOrDefault (d.meta.bind RunMeta.created_at) now, none⟩ :: events
  | none => events

/-- Model of `s.toLowerCase()`; for the ASCII status names involved this
agrees with JavaScript, and unlike `String.toLower` it is defined by
structural recursion, so concrete instances evaluate inside proofs. -/
def jsToLower (s : String) : String := String.mk (s.data.map Char.toLower)

/-- `['completed', 'failed', 'cancelled'].includes(s)`. -/
def isTerminalStatus (s : String) : Bool :=
  s == "completed" || s == "failed" || s == "cancelled"

/-- One poll tick (`check` inside `startPolling`): replace the transcript,
derive the status (`details.meta?.status || RunStatus.RUNNING`), keep
result/error when the snapshot carries truthy ones, and stop both sources
(and the cancelling flag) when the lowercased status is terminal. -/
def pollTickStep (s : MonitorState) (d : RunDetails) (now : String) : MonitorState :=
  let s1 : MonitorState :=
    { s with transcript := pollEvents d now,
             status := jsOrDefault (d.meta.bind RunMeta.status) "running",
             result := if isTruthyStr d.result then d.result else s.result,
             error := if isTruthyStr d.error then d.error else s.error }
  if isTerminalStatus (jsToLower (jsOrDefault (d.meta.bind RunMeta.status) "")) then
    { s1 with streamOpen := false, pollOpen := false, isCancelling := false }
  else
    s1

/-- `handleStop`: a no-op without a run id; otherwise sets the cancelling
flag, issues one best-effort cancel request (`api.cancelRun` swallows its
own errors, so the subsequent `setStatus('cancelling')` always runs), and
sets the status to `cancelling`.  The returned boolean records whether a
cancel request was issued. -/
def handleStop (s : MonitorState) : MonitorState × Bool :=
  match s.runId with
  | none => (s, false)
  | some _ => ({ s with isCancelling := true, status := "cancelling" }, true)

/-- JavaScript `p.trim()` on a string. -/
def jsTrimStr (p : String) : String := ⟨jsTrim p.data⟩

/-- `{run_id, status}` returned by `POST /run` / `POST /loop`. -/
structure RunResponse where
  run_id : String
  status : String
deriving DecidableEq, Repr

/-- State of `handleStart` after `resetChat`, the local `user_prompt`
seeding of the transcript, and `setStatus('initiating')` — i.e. the state
in force while the launch request is in flight, before any run event is
processed. -/
def handleStartBegin (promptText now : String) : MonitorState :=
  { runId := none, status := "initiating",
    transcript := [⟨"user_prompt", promptText, now, none⟩],
    result := none, error := none, isCancelling := false,
    streamOpen := false, pollOpen := false }

/-- `handleStart` reacting to the launch result: success stores the
returned run id verbatim, sets the status to `running` and opens the
stream; failure surfaces `err.message || 'Failed to start run'` and sets
the status to `failed`. -/
def handleStartFinish (s : MonitorState) (res : Except String RunResponse) : MonitorState :=
  match res with
  | .ok r => { s with runId := some r.run_id, status := "running", streamOpen := true }
  | .error msg =>
    { s with error := some (if msg == "" then "Failed to start run" else msg),
             status := "failed" }

/-- Whole `handleStart`: a no-op when the prompt trims to empty. -/
def handleStart (s : MonitorState) (promptText now : String)
    (res : Except String RunResponse) : MonitorState :=
  if jsTrimStr promptText == "" then s
  else handleStartFinish (handleStartBegin promptText now) res

/-! ## API layer (api/heidi.ts) -/

/-- Abstract outcome of the one `fetch` a launch performs: either the
transport rejects (the error's message propagates), or a response with an
HTTP status, an error body text and a parsed success body arrives. -/
inductive FetchOutcome where
  | networkFailure (msg : String)
  | httpResponse (status : Nat) (errText : String) (resp : RunResponse)
deriving DecidableEq, Repr

/-- `Response.ok`: HTTP status in the range 200–299. -/
def resOk (status : Nat) : Bool := decide (200 ≤ status) && decide (status ≤ 299)

/-- `api.startRun` response handling: non-ok responses throw
`Unauthorized` for status 401 and otherwise `Failed to start run: ` plus
the body text; ok responses return the parsed body. -/
def startRunResult : FetchOutcome → Except String RunResponse
  | .networkFailure msg => .error msg
  | .httpResponse st errText resp =>
    if resOk st then .ok resp
    else if st == 401 then .error "Unauthorized"
    else .error ("Failed to start run: " ++ errText)

/-- `url.replace(/\/$/, '')` of `getBaseUrl`: drop one trailing slash. -/
def stripTrailSlash (u : List Char) : List Char :=
  if u.getLast? = some '/' then u.dropLast else u

/-- `api.getStreamUrl`: `getBaseUrl() + '/runs/' + runId + '/stream'`. -/
def getStreamUrlL (baseUrl runId : List Char) : List Char :=
  stripTrailSlash baseUrl ++ ("/runs/".data) ++ runId ++ ("/stream".data)

/-- The headers `startStreaming` builds for the stream fetch: the
`X-Heidi-Key` header is present exactly when the configured key is a
non-empty string. -/
def streamHeaders (apiKey : String) : List (String × String) :=
  if apiKey == "" then [] else [("X-Heidi-Key", apiKey)]

/-- The request `startStreaming` issues: URL from `getStreamUrl`, headers
from the configured API key. -/
structure StreamRequest where
  url : List Char
  headers : List (String × String)
deriving DecidableEq, Repr

def openStreamRequest (baseUrl apiKey runId : String) : StreamRequest :=
  { url := getStreamUrlL baseUrl.data runId.data, headers := streamHeaders apiKey }

/-- The fields of `LoopRequest` (`types.ts`) that `startLoop` reads;
`max_retries` and `workdir` may be absent at runtime (the code guards
them with `??` and `||`), `dry_run` is optional with `undefined` falsy. -/
structure LoopRequest where
  task : String
  executor : String
  max_retries : Option Int
  workdir : Option String
  dry_run : Bool
deriving DecidableEq, Repr

/-- The JSON body `startLoop` posts; `workdir := none` renders as JSON
`null`, and `dry_run_key` records whether the `dry_run: true` key is
included at all. -/
structure LoopBody where
  task : String
  executor : String
  max_retries : Int
  workdir : Option String
  dry_run_key : Bool
deriving DecidableEq, Repr

/-- `api.startLoop` body construction: `executor: payload.executor ||
'copilot'`, `max_retries: payload.max_retries ?? 2`, `workdir:
payload.workdir || null`, `...(payload.dry_run ? {dry_run: true} : {})`. -/
def startLoopBody (p : LoopRequest) : LoopBody :=
  { task := p.task,
    executor := if p.executor == "" then "copilot" else p.executor,
    max_retries := p.max_retries.getD 2,
    workdir := match p.workdir with
               | some w => if w == "" then none else some w
               | none => none,
    dry_run_key := p.dry_run }

/-- The body as the claim words it: identical except that `workdir` is
passed through whenever present. -/
def claimedLoopBody (p : LoopRequest) : LoopBody :=
  { task := p.task,
    executor := if p.executor == "" then "copilot" else p.executor,
    max_retries := p.max_retries.getD 2,
    workdir := p.workdir,
    dry_run_key := p.dry_run }

/-- Lexicographic order on character lists; ISO-8601 timestamps written in
one fixed format compare chronologically exactly when they compare
lexicographically, so this expresses "no later than" for the claims. -/
def lexLe : List Char → List Char → Bool
  | [], _ => true
  | _ :: _, [] => false
  | x :: xs, y :: ys => if x = y then lexLe xs ys else decide (x < y)

/-! ## C1: chunking invariance of the stream decoder -/

/-- C1: for every byte stream and every partition of it into chunks,
feeding the chunks one at a time through the read loop produces exactly
the same decoded event sequence (and the same final buffered residual) as
feeding the entire stream as one chunk; records are only emitted once
their blank-line delimiter has arrived, whatever JSON parser decodes the
payloads. -/
theorem c1_chunked_decode_eq_whole (parse : List Char → Option RunEvent)
    (chunks : List (List Char)) :
    streamEvents parse (feedAll [] chunks).1 =
      streamEvents parse (feedAll [] [chunks.flatten]).1 ∧
    (feedAll [] chunks).2 = (feedAll [] [chunks.flatten]).2 := by
  have h1 : feedAll [] chunks = splitNN1 chunks.flatten := by
    have h := feedAll_eq_splitNN1 chunks [] rfl
    simpa using h
  have h2 : feedAll [] [chunks.flatten] = splitNN1 chunks.flatten := by
    have h := feedAll_eq_splitNN1 [chunks.flatten] [] rfl
    simpa using h
  rw [h1, h2]
  exact ⟨rfl, rfl⟩

/-! ## C3: malformed records are skipped, the stream continues -/

theorem lineEvents_eq_nil_of_fails (parse : List Char → Option RunEvent)
    (line : List Char) (h : lineFailsB parse line = true) :
    lineEvents parse line = [] := by
  unfold lineFailsB at h
  unfold lineEvents
  cases hm : stripDataMark (jsTrim line) with
  | none => rfl
  | some rest =>
    rw [hm] at h
    simp only at h ⊢
    by_cases hj : jsonStrOf rest = []
    · simp [hj]
    · simp only [if_neg hj]
      have h' : (jsonStrOf rest).isEmpty = true ∨ (parse (jsonStrOf rest)).isNone = true := by
        simpa using h
      rcases h' with h1 | h1
      · exact absurd (List.isEmpty_iff.mp h1) hj
      · rw [Option.isNone_iff_eq_none.mp h1]; rfl

/-- C3: a record with no `data:` line produces no event; a record whose
`data:` payloads all fail to parse (or are empty) produces no event; and
in either case every other record in the stream is still decoded exactly
as before — one malformed record never aborts or alters the rest of the
stream. -/
theorem c3_malformed_record_skipped (parse : List Char → Option RunEvent)
    (r : List Char) (rs₁ rs₂ : List (List Char)) :
    ((splitLF r).all (fun line => (stripDataMark (jsTrim line)).isNone) = true →
        recordEvents parse r = []) ∧
    ((splitLF r).all (lineFailsB parse) = true → recordEvents parse r = []) ∧
    streamEvents parse (rs₁ ++ r :: rs₂) =
      streamEvents parse rs₁ ++ recordEvents parse r ++ streamEvents parse rs₂ := by
  have key : (splitLF r).all (lineFailsB parse) = true → recordEvents parse r = [] := by
    intro hall
    unfold recordEvents
    rw [List.flatten_eq_nil_iff]
    intro l hl
    rcases List.mem_map.mp hl with ⟨line, hline, rfl⟩
    exact lineEvents_eq_nil_of_fails parse line (List.all_eq_true.mp hall line hline)
  refine ⟨?_, key, ?_⟩
  · intro hall
    apply key
    rw [List.all_eq_true] at hall ⊢
    intro line hline
    have hn := Option.isNone_iff_eq_none.mp (hall line hline)
    unfold lineFailsB
    rw [hn]
  · simp [streamEvents, List.map_append, List.flatten_append, List.append_assoc]

/-- Concrete check of C3: a record with no `data:` line and a record whose
payload the parser rejects each decode to nothing, and the surrounding
records decode unchanged. -/
theorem c3_malformed_record_skipped_witness :
    recordEvents (fun _ => none) ("event: ping".data) = [] ∧
    recordEvents (fun _ => none) ("data: x".data) = [] ∧
    streamEvents (fun _ => none) (["a".data] ++ "data: x".data :: ["b".data]) =
      streamEvents (fun _ => none) ["a".data] ++
        recordEvents (fun _ => none) ("data: x".data) ++
        streamEvents (fun _ => none) ["b".data] := by
  have h1 := c3_malformed_record_skipped (fun _ => none) ("event: ping".data) [] []
  have h2 := c3_malformed_record_skipped (fun _ => none) ("data: x".data)
    ["a".data] ["b".data]
  exact ⟨h1.1 (by decide), h2.2.1 (by decide), h2.2.2⟩

/-! ## C2: the transcript is append-only under stream events -/

theorem dupB_iff (prev : List RunEvent) (ev : RunEvent) :
    dupB prev ev = true ↔
      ev.type = "user_prompt" ∧
        ∃ e ∈ prev, e.type = "user_prompt" ∧ e.message = ev.message := by
  simp [dupB, List.any_eq_true, Bool.and_eq_true, beq_iff_eq, and_assoc]

theorem reconcileStream_of_dup (prev : List RunEvent) (ev : RunEvent)
    (h : dupB prev ev = true) : reconcileStream prev ev = prev := by
  simp [reconcileStream, h]

theorem reconcileStream_of_fresh (prev : List RunEvent) (ev : RunEvent)
    (h : ¬ dupB prev ev = true) : reconcileStream prev ev = prev ++ [ev] := by
  simp [reconcileStream, h]

theorem foldTranscript_cons (init : List RunEvent) (ev : RunEvent)
    (rest : List RunEvent) :
    foldTranscript init (ev :: rest) = foldTranscript (reconcileStream init ev) rest := rfl

theorem foldTranscript_eq_append (evs : List RunEvent) :
    ∀ init, foldTranscript init evs = init ++ streamAppends init evs := by
  induction evs with
  | nil => intro init; simp [foldTranscript, streamAppends]
  | cons ev rest ih =>
    intro init
    rw [foldTranscript_cons]
    by_cases h : dupB init ev = true
    · rw [reconcileStream_of_dup init ev h, ih init]
      have hs : streamAppends init (ev :: rest) = streamAppends init rest := by
        simp [streamAppends, h]
      rw [hs]
    · rw [reconcileStream_of_fresh init ev h, ih (init ++ [ev])]
      have hs : streamAppends init (ev :: rest) =
          ev :: streamAppends (init ++ [ev]) rest := by
        simp [streamAppends, h]
      rw [hs, ← List.append_cons]

theorem streamAppends_sublist (evs : List RunEvent) :
    ∀ trans, List.Sublist (streamAppends trans evs) evs := by
  induction evs with
  | nil => intro trans; simp [streamAppends]
  | cons ev rest ih =>
    intro trans
    by_cases h : dupB trans ev = true
    · have hs : streamAppends trans (ev :: rest) = streamAppends trans rest := by
        simp [streamAppends, h]
      rw [hs]
      exact (ih trans).cons ev
    · have hs : streamAppends trans (ev :: rest) =
          ev :: streamAppends (trans ++ [ev]) rest := by
        simp [streamAppends, h]
      rw [hs]
      exact (ih (trans ++ [ev])).cons₂ ev

theorem mem_foldTranscript (evs : List RunEvent) :
    ∀ init e, e ∈ init → e ∈ foldTranscript init evs := by
  induction evs with
  | nil => intro init e he; exact he
  | cons ev rest ih =>
    intro init e he
    rw [foldTranscript_cons]
    apply ih
    by_cases h : dupB init ev = true
    · rw [reconcileStream_of_dup init ev h]; exact he
    · rw [reconcileStream_of_fresh init ev h]; exact List.mem_append_left _ he

theorem foldTranscript_covers (evs : List RunEvent) :
    ∀ init, ∀ e ∈ evs,
      e ∈ foldTranscript init evs ∨
        (e.type = "user_prompt" ∧ ∃ e' ∈ foldTranscript init evs,
           e'.type = "user_prompt" ∧ e'.message = e.message) := by
  induction evs with
  | nil => intro init e he; simp at he
  | cons ev rest ih =>
    intro init e he
    rcases List.mem_cons.mp he with rfl | hmem
    · rw [foldTranscript_cons]
      by_cases h : dupB init e = true
      · right
        rcases (dupB_iff init e).mp h with ⟨hty, x, hxmem, hxty, hxmsg⟩
        refine ⟨hty, x, ?_, hxty, hxmsg⟩
        apply mem_foldTranscript
        rw [reconcileStream_of_dup init e h]
        exact hxmem
      · left
        apply mem_foldTranscript
        rw [reconcileStream_of_fresh init e h]
        exact List.mem_append_right _ (List.mem_singleton.mpr rfl)
    · rw [foldTranscript_cons]
      exact ih (reconcileStream init ev) e hmem

/-- C2 (amended): applying a sequence of decoded stream events never
removes or reorders previously appended entries — the prior transcript
stays as an unchanged prefix and the newly appended events form an
order-preserving sub-sequence of the incoming events; every incoming
event is appended at the tail except a `user_prompt` whose kind+message
already occurs in the transcript, which is dropped but is still
represented by the matching earlier entry. -/
theorem c2_transcript_append_only (init evs : List RunEvent) :
    foldTranscript init evs = init ++ streamAppends init evs ∧
    List.Sublist (streamAppends init evs) evs ∧
    ∀ e ∈ evs,
      e ∈ foldTranscript init evs ∨
        (e.type = "user_prompt" ∧ ∃ e' ∈ foldTranscript init evs,
           e'.type = "user_prompt" ∧ e'.message = e.message) :=
  ⟨foldTranscript_eq_append evs init, streamAppends_sublist evs init,
   foldTranscript_covers evs init⟩

/-- Concrete check of C2 (amended) on a transcript holding a local prompt
entry, fed a log event and a duplicate prompt event. -/
theorem c2_transcript_append_only_witness :
    foldTranscript [⟨"user_prompt", "hi", "T0", none⟩]
        [⟨"log", "x", "T1", none⟩, ⟨"user_prompt", "hi", "T2", none⟩] =
      [⟨"user_prompt", "hi", "T0", none⟩] ++
        streamAppends [⟨"user_prompt", "hi", "T0", none⟩]
          [⟨"log", "x", "T1", none⟩, ⟨"user_prompt", "hi", "T2", none⟩] ∧
    ((⟨"user_prompt", "hi", "T2", none⟩ : RunEvent) ∈
        foldTranscript [⟨"user_prompt", "hi", "T0", none⟩]
          [⟨"log", "x", "T1", none⟩, ⟨"user_prompt", "hi", "T2", none⟩] ∨
      ((⟨"user_prompt", "hi", "T2", none⟩ : RunEvent).type = "user_prompt" ∧
        ∃ e' ∈ foldTranscript [⟨"user_prompt", "hi", "T0", none⟩]
            [⟨"log", "x", "T1", none⟩, ⟨"user_prompt", "hi", "T2", none⟩],
          e'.type = "user_prompt" ∧
            e'.message = (⟨"user_prompt", "hi", "T2", none⟩ : RunEvent).message)) := by
  have h := c2_transcript_append_only [⟨"user_prompt", "hi", "T0", none⟩]
    [⟨"log", "x", "T1", none⟩, ⟨"user_prompt", "hi", "T2", none⟩]
  exact ⟨h.1, h.2.2 ⟨"user_prompt", "hi", "T2", none⟩ (by decide)⟩

/-- C2 as stated is false: a streamed `user_prompt` event whose message
matches an existing `user_prompt` entry is not appended at the tail — the
transcript is returned unchanged, and the decoded event (with its own
timestamp) is absent from the final transcript. -/
theorem c2_counterexample :
    foldTranscript [⟨"user_prompt", "hi", "T0", none⟩]
        [⟨"user_prompt", "hi", "T1", none⟩] =
      [⟨"user_prompt", "hi", "T0", none⟩] ∧
    (⟨"user_prompt", "hi", "T1", none⟩ : RunEvent) ∉
      foldTranscript [⟨"user_prompt", "hi", "T0", none⟩]
        [⟨"user_prompt", "hi", "T1", none⟩] := by
  decide

/-! ## C4: user_prompt de-duplication -/

/-- C4: a streamed `user_prompt` event whose message already occurs on a
`user_prompt` entry leaves the transcript unchanged (so a transcript
holding exactly one matching entry still holds exactly one — timestamps
are not compared), a streamed `user_prompt` matching no existing entry is
appended normally, and the locally-synthesized transcript of a fresh
launch holds exactly one `user_prompt` entry with the prompt text. -/
theorem c4_user_prompt_dedup (init : List RunEvent) (ev : RunEvent) (m ts : String)
    (hty : ev.type = "user_prompt") :
    ((∃ e ∈ init, e.type = "user_prompt" ∧ e.message = ev.message) →
        reconcileStream init ev = init) ∧
    ((¬ ∃ e ∈ init, e.type = "user_prompt" ∧ e.message = ev.message) →
        reconcileStream init ev = init ++ [ev]) ∧
    (countUP ev.message init = 1 →
        countUP ev.message (reconcileStream init ev) = 1) ∧
    countUP m (handleStartBegin m ts).transcript = 1 := by
  refine ⟨?_, ?_, ?_, ?_⟩
  · intro hex
    exact reconcileStream_of_dup init ev ((dupB_iff init ev).mpr ⟨hty, hex⟩)
  · intro hnex
    exact reconcileStream_of_fresh init ev (fun h => hnex ((dupB_iff init ev).mp h).2)
  · intro h1
    have hne : init.filter (fun e => e.type == "user_prompt" && e.message == ev.message) ≠ [] := by
      intro h0
      rw [countUP, h0] at h1
      simp at h1
    rcases List.exists_mem_of_ne_nil _ hne with ⟨x, hx⟩
    have hx' := List.mem_filter.mp hx
    have hex : ∃ e ∈ init, e.type = "user_prompt" ∧ e.message = ev.message :=
      ⟨x, hx'.1, by simpa [Bool.and_eq_true, beq_iff_eq] using hx'.2⟩
    rw [reconcileStream_of_dup init ev ((dupB_iff init ev).mpr ⟨hty, hex⟩)]
    exact h1
  · simp [countUP, handleStartBegin]

/-- Concrete check of C4: the locally-seeded transcript absorbs a
server-echoed duplicate prompt (one entry remains), while a fresh prompt
event is appended. -/
theorem c4_user_prompt_dedup_witness :
    reconcileStream [⟨"user_prompt", "go", "T0", none⟩]
        ⟨"user_prompt", "go", "T9", none⟩ =
      [⟨"user_prompt", "go", "T0", none⟩] ∧
    reconcileStream [] ⟨"user_prompt", "new", "T9", none⟩ =
      [] ++ [⟨"user_prompt", "new", "T9", none⟩] ∧
    countUP "go" (reconcileStream [⟨"user_prompt", "go", "T0", none⟩]
        ⟨"user_prompt", "go", "T9", none⟩) = 1 ∧
    countUP "go" (handleStartBegin "go" "T0").transcript = 1 := by
  have h := c4_user_prompt_dedup [⟨"user_prompt", "go", "T0", none⟩]
    ⟨"user_prompt", "go", "T9", none⟩ "go" "T0" rfl
  have h2 := c4_user_prompt_dedup [] ⟨"user_prompt", "new", "T9", none⟩ "go" "T0" rfl
  exact ⟨h.1 (by decide), h2.2.1 (by decide), h.2.2.1 (by decide), h.2.2.2⟩

/-! ## C5: poll-mode wholesale replacement and prompt synthesis -/

/-- C5 (amended): every poll tick replaces the whole transcript with the
snapshot-derived event list; when that list has no `user_prompt` event and
the metadata carries the prompt/task text, a `user_prompt` entry is
synthesized and prepended whose timestamp is `meta.created_at` when
truthy and otherwise the current wall-clock time — it is not constrained
relative to the first real event's timestamp. -/
theorem c5_poll_wholesale_replace (s : MonitorState) (d : RunDetails) (now m : String)
    (hmsg : metaUserMsg d = some m)
    (hno : (d.events.getD []).any (fun e => e.type == "user_prompt") = false) :
    (pollTickStep s d now).transcript = pollEvents d now ∧
    pollEvents d now =
      ⟨"user_prompt", m, jsOrDefault (d.meta.bind RunMeta.created_at) now, none⟩ ::
        d.events.getD [] := by
  constructor
  · by_cases hterm :
        isTerminalStatus (jsToLower (jsOrDefault (d.meta.bind RunMeta.status) "")) = true <;>
      simp [pollTickStep, hterm]
  · unfold pollEvents
    rw [hmsg]
    simp [hno]

/-- Concrete check of C5 (amended): a snapshot with prompt metadata, no
`created_at` and no `user_prompt` event gets a synthesized prompt entry
stamped with the current time. -/
theorem c5_poll_wholesale_replace_witness :
    (pollTickStep ⟨some "r", "running", [], none, none, false, false, true⟩
        { run_id := "r",
          meta := some { status := some "running", prompt := some "p",
                         task := none, created_at := none },
          events := some [⟨"log", "x", "T1", none⟩],
          result := none, error := none } "NOW").transcript =
      pollEvents
        { run_id := "r",
          meta := some { status := some "running", prompt := some "p",
                         task := none, created_at := none },
          events := some [⟨"log", "x", "T1", none⟩],
          result := none, error := none } "NOW" ∧
    pollEvents
        { run_id := "r",
          meta := some { status := some "running", prompt := some "p",
                         task := none, created_at := none },
          events := some [⟨"log", "x", "T1", none⟩],
          result := none, error := none } "NOW" =
      ⟨"user_prompt", "p", "NOW", none⟩ :: [⟨"log", "x", "T1", none⟩] := by
  have h := c5_poll_wholesale_replace
    ⟨some "r", "running", [], none, none, false, false, true⟩
    { run_id := "r",
      meta := some { status := some "running", prompt := some "p",
                     task := none, created_at := none },
      events := some [⟨"log", "x", "T1", none⟩],
      result := none, error := none } "NOW" "p" (by decide) (by decide)
  exact ⟨h.1, h.2⟩

/-- C5 as stated is false in its timestamp conjunct: the synthesized
entry's timestamp is `meta.created_at || now`, which the code never
compares to the first real event's timestamp — here `created_at` is later
than the first event, and the synthesized entry inherits it. -/
theorem c5_counterexample :
    pollEvents
        { run_id := "r",
          meta := some { status := some "running", prompt := some "p",
                         task := none, created_at := some "2099-01-01T00:00:00Z" },
          events := some [⟨"log", "x", "2020-01-01T00:00:00Z", none⟩],
          result := none, error := none } "2026-10-11T00:00:00Z" =
      [⟨"user_prompt", "p", "2099-01-01T00:00:00Z", none⟩,
       ⟨"log", "x", "2020-01-01T00:00:00Z", none⟩] ∧
    lexLe ("2099-01-01T00:00:00Z".data) ("2020-01-01T00:00:00Z".data) = false := by
  decide

/-! ## C6: terminal status and connection teardown -/

/-- C6 (amended): a poll tick whose fetched status is terminal stops the
stream handle, the poll timer and the cancelling flag within that same
step; a decoded stream event — even a terminal `status` event — never
changes either connection handle (the stream read only ends when the
server closes it). -/
theorem c6_terminal_stops_sources (s : MonitorState) (d : RunDetails)
    (now : String) (ev : RunEvent)
    (hterm : isTerminalStatus (jsToLower (jsOrDefault (d.meta.bind RunMeta.status) "")) = true) :
    (pollTickStep s d now).streamOpen = false ∧
    (pollTickStep s d now).pollOpen = false ∧
    (pollTickStep s d now).isCancelling = false ∧
    (streamDataStep s ev).streamOpen = s.streamOpen ∧
    (streamDataStep s ev).pollOpen = s.pollOpen := by
  refine ⟨?_, ?_, ?_, rfl, rfl⟩ <;> simp [pollTickStep, hterm]

/-- Concrete check of C6 (amended): a completed poll snapshot closes both
sources in one tick while a completed stream status event leaves the
stream open. -/
theorem c6_terminal_stops_sources_witness :
    (pollTickStep ⟨some "r", "running", [], none, none, true, true, true⟩
        { run_id := "r",
          meta := some { status := some "completed", prompt := none,
                         task := none, created_at := none },
          events := some [], result := none, error := none } "NOW").streamOpen = false ∧
    (pollTickStep ⟨some "r", "running", [], none, none, true, true, true⟩
        { run_id := "r",
          meta := some { status := some "completed", prompt := none,
                         task := none, created_at := none },
          events := some [], result := none, error := none } "NOW").pollOpen = false ∧
    (streamDataStep ⟨some "r", "running", [], none, none, false, true, false⟩
        ⟨"status", "completed", "T1", none⟩).streamOpen = true := by
  have h := c6_terminal_stops_sources
    ⟨some "r", "running", [], none, none, true, true, true⟩
    { run_id := "r",
      meta := some { status := some "completed", prompt := none,
                     task := none, created_at := none },
      events := some [], result := none, error := none } "NOW"
    ⟨"status", "completed", "T1", none⟩ (by decide)
  refine ⟨h.1, h.2.1, ?_⟩
  have h2 := c6_terminal_stops_sources
    ⟨some "r", "running", [], none, none, false, true, false⟩
    { run_id := "r",
      meta := some { status := some "completed", prompt := none,
                     task := none, created_at := none },
      events := some [], result := none, error := none } "NOW"
    ⟨"status", "completed", "T1", none⟩ (by decide)
  rw [h2.2.2.2.1]

/-- C6 as stated is false for the stream path: a terminal coarse status
delivered by a stream `status` event updates the status but stops neither
the stream read nor anything else within that reconciliation step. -/
theorem c6_counterexample :
    (streamDataStep ⟨some "r", "running", [], none, none, false, true, false⟩
        ⟨"status", "completed", "T1", none⟩).status = "completed" ∧
    isTerminalStatus
      ((streamDataStep ⟨some "r", "running", [], none, none, false, true, false⟩
          ⟨"status", "completed", "T1", none⟩).status) = true ∧
    (streamDataStep ⟨some "r", "running", [], none, none, false, true, false⟩
        ⟨"status", "completed", "T1", none⟩).streamOpen = true := by
  decide

/-! ## C7: cancellation -/

/-- C7 (amended): with an assigned run id, `cancel` always issues one
best-effort request, raises the cancelling flag and sets the status to
`cancelling`, regardless of the current (possibly terminal or already
cancelling) status — the terminal-state protection lives in the UI, which
does not render the stop control for inactive runs; without a run id it
is a no-op that issues no request; transcript, run id, result and error
are never changed. -/
theorem c7_cancel_behaviour (s : MonitorState) :
    (s.runId = none → handleStop s = (s, false)) ∧
    (s.runId ≠ none →
        (handleStop s).1.status = "cancelling" ∧
        (handleStop s).1.isCancelling = true ∧
        (handleStop s).2 = true) ∧
    (handleStop s).1.transcript = s.transcript ∧
    (handleStop s).1.runId = s.runId ∧
    (handleStop s).1.result = s.result ∧
    (handleStop s).1.error = s.error := by
  cases h : s.runId with
  | none => simp [handleStop, h]
  | some rid => simp [handleStop, h]

/-- Concrete check of C7 (amended): cancel on an active run sets the
cancelling status and issues the request; cancel with no run id is a
no-op. -/
theorem c7_cancel_behaviour_witness :
    (handleStop ⟨some "r", "running", [], none, none, false, true, false⟩).1.status =
      "cancelling" ∧
    (handleStop ⟨some "r", "running", [], none, none, false, true, false⟩).2 = true ∧
    handleStop ⟨none, "idle", [], none, none, false, false, false⟩ =
      (⟨none, "idle", [], none, none, false, false, false⟩, false) := by
  have h := c7_cancel_behaviour ⟨some "r", "running", [], none, none, false, true, false⟩
  have h2 := c7_cancel_behaviour ⟨none, "idle", [], none, none, false, false, false⟩
  exact ⟨(h.2.1 (by decide)).1, (h.2.1 (by decide)).2.2, h2.1 rfl⟩

/-- C7 as stated is false: `handleStop` has no terminal-status guard, so
cancel on a run whose status is already terminal still flips the status
back to `cancelling` and still issues a cancel request — not a no-op. -/
theorem c7_counterexample :
    (handleStop ⟨some "r", "completed", [], none, none, false, false, false⟩).1.status =
      "cancelling" ∧
    (handleStop ⟨some "r", "completed", [], none, none, false, false, false⟩).2 = true := by
  decide

/-! ## C8: launch success and failure classification -/

/-- C8 (amended): a transport failure surfaces its own message and any
launch failure sets the status to `failed` with the message attached to
the observable state; among HTTP failures only status 401 is classified
`Unauthorized` — 403 and every other non-2xx status produce the generic
`Failed to start run: <body>` message; on success the returned run id is
stored verbatim (no emptiness check), the status is `initiating` from
before the request until success sets it to `running`. -/
theorem c8_launch_classification (s : MonitorState) (p now msg errText e : String)
    (r : RunResponse) (st : Nat)
    (hp : jsTrimStr p ≠ "") (he : e ≠ "") :
    startRunResult (.networkFailure msg) = .error msg ∧
    (resOk st = false → st = 401 →
        startRunResult (.httpResponse st errText r) = .error "Unauthorized") ∧
    (resOk st = false → st ≠ 401 →
        startRunResult (.httpResponse st errText r) =
          .error ("Failed to start run: " ++ errText)) ∧
    (resOk st = true → startRunResult (.httpResponse st errText r) = .ok r) ∧
    (handleStart s p now (.error e)).status = "failed" ∧
    (handleStart s p now (.error e)).error = some e ∧
    (handleStartBegin p now).status = "initiating" ∧
    (handleStart s p now (.ok r)).runId = some r.run_id ∧
    (handleStart s p now (.ok r)).status = "running" := by
  have hguard : (jsTrimStr p == "") = false := by
    simpa [beq_iff_eq] using hp
  have heguard : (e == "") = false := by
    simpa [beq_iff_eq] using he
  refine ⟨rfl, ?_, ?_, ?_, ?_, ?_, rfl, ?_, ?_⟩
  · intro hok h401
    subst h401
    simp [startRunResult, hok]
  · intro hok h401
    have : (st == 401) = false := by simpa [beq_iff_eq] using h401
    simp [startRunResult, hok, this]
  · intro hok
    simp [startRunResult, hok]
  · simp [handleStart, hguard, handleStartFinish, heguard]
  · simp [handleStart, hguard, handleStartFinish, heguard]
  · simp [handleStart, hguard, handleStartFinish]
  · simp [handleStart, hguard, handleStartFinish]

/-- Concrete check of C8 (amended): a network failure and a 401 are
classified, a launch failure lands in `failed` with the message attached,
and a successful launch stores the run id with status `running` after
`initiating`. -/
theorem c8_launch_classification_witness :
    startRunResult (.networkFailure "Failed to fetch") = .error "Failed to fetch" ∧
    startRunResult (.httpResponse 401 "denied" ⟨"r-1", "running"⟩) =
      .error "Unauthorized" ∧
    (handleStart ⟨none, "idle", [], none, none, false, false, false⟩ "go" "T0"
        (.error "boom")).status = "failed" ∧
    (handleStart ⟨none, "idle", [], none, none, false, false, false⟩ "go" "T0"
        (.error "boom")).error = some "boom" ∧
    (handleStartBegin "go" "T0").status = "initiating" ∧
    (handleStart ⟨none, "idle", [], none, none, false, false, false⟩ "go" "T0"
        (.ok ⟨"r-42", "running"⟩)).runId = some "r-42" ∧
    (handleStart ⟨none, "idle", [], none, none, false, false, false⟩ "go" "T0"
        (.ok ⟨"r-42", "running"⟩)).status = "running" := by
  have h := c8_launch_classification ⟨none, "idle", [], none, none, false, false, false⟩
    "go" "T0" "Failed to fetch" "denied" "boom" ⟨"r-42", "running"⟩ 401
    (by decide) (by decide)
  exact ⟨h.1, h.2.1 (by decide) rfl, h.2.2.2.2.1, h.2.2.2.2.2.1, h.2.2.2.2.2.2.1,
         h.2.2.2.2.2.2.2.1, h.2.2.2.2.2.2.2.2⟩

/-- C8 as stated is false in two conjuncts: a 403 authorization failure is
not classified as `Unauthorized` (it produces the generic message), and a
successful launch stores the returned run id verbatim even when it is
empty. -/
theorem c8_counterexample :
    startRunResult (.httpResponse 403 "forbidden" ⟨"r-1", "running"⟩) =
      .error "Failed to start run: forbidden" ∧
    ("Failed to start run: forbidden" : String) ≠ "Unauthorized" ∧
    (handleStart ⟨none, "idle", [], none, none, false, false, false⟩ "go" "T0"
        (.ok ⟨"", "running"⟩)).runId = some "" := by
  exact ⟨rfl, by decide, rfl⟩

/-! ## C9: stream credentials travel in a header, never in the URL -/

/-- C9: whenever the stream consumer opens the connection for a run id, a
configured non-empty API key is attached as the `X-Heidi-Key` request
header; the stream URL is computed independently of the key, and (when
neither the configured base URL nor the run id contains one) the URL
contains no `?`, hence no query string at all. -/
theorem c9_stream_credentials (baseUrl apiKey runId : String)
    (hkey : apiKey ≠ "")
    (hb : '?' ∉ baseUrl.data) (hr : '?' ∉ runId.data) :
    ("X-Heidi-Key", apiKey) ∈ (openStreamRequest baseUrl apiKey runId).headers ∧
    (openStreamRequest baseUrl apiKey runId).url =
      (openStreamRequest baseUrl "" runId).url ∧
    '?' ∉ (openStreamRequest baseUrl apiKey runId).url := by
  have hkeyb : (apiKey == "") = false := by simpa [beq_iff_eq] using hkey
  refine ⟨?_, rfl, ?_⟩
  · simp [openStreamRequest, streamHeaders, hkeyb]
  · have hstrip : '?' ∉ stripTrailSlash baseUrl.data := by
      unfold stripTrailSlash
      split
      · intro hmem
        exact hb ((List.dropLast_sublist baseUrl.data).subset hmem)
      · exact hb
    intro hmem
    simp only [openStreamRequest, getStreamUrlL, List.mem_append] at hmem
    rcases hmem with ((h1 | h2) | h3) | h4
    · exact hstrip h1
    · revert h2; decide
    · exact hr h3
    · revert h4; decide

/-- Concrete check of C9: a configured key rides in the header and the
stream URL carries no query string. -/
theorem c9_stream_credentials_witness :
    ("X-Heidi-Key", "sekret") ∈
      (openStreamRequest "http://h/api" "sekret" "r-1").headers ∧
    (openStreamRequest "http://h/api" "sekret" "r-1").url =
      (openStreamRequest "http://h/api" "" "r-1").url ∧
    '?' ∉ (openStreamRequest "http://h/api" "sekret" "r-1").url := by
  have h := c9_stream_credentials "http://h/api" "sekret" "r-1"
    (by decide) (by decide) (by decide)
  exact h

/-! ## C10: the /loop request body -/

/-- C10 (amended): the body `startLoop` posts agrees with the claimed
shape — `task` verbatim, `executor` defaulted to `copilot` when empty,
`max_retries` defaulted to 2 when absent (in particular an omitted
`max_retries` is silently sent as 2), `dry_run: true` present exactly
when set — whenever `workdir` is not the empty string; an empty-string
`workdir` is sent as `null` (JavaScript `||`), not passed through. -/
theorem c10_loop_body (p : LoopRequest) (h : p.workdir ≠ some "") :
    startLoopBody p = claimedLoopBody p ∧
    (p.max_retries = none → (startLoopBody p).max_retries = 2) := by
  constructor
  · cases hw : p.workdir with
    | none => simp [startLoopBody, claimedLoopBody, hw]
    | some w =>
      have hne : w ≠ "" := fun h' => h (by rw [hw, h'])
      have : (w == "") = false := by simpa [beq_iff_eq] using hne
      simp [startLoopBody, claimedLoopBody, hw, this]
  · intro hm
    simp [startLoopBody, hm]

/-- Concrete check of C10 (amended): empty executor defaults to
`copilot`, omitted `max_retries` is sent as 2 and `dry_run` is included
when set. -/
theorem c10_loop_body_witness :
    startLoopBody ⟨"t", "", none, none, true⟩ =
      claimedLoopBody ⟨"t", "", none, none, true⟩ ∧
    (startLoopBody ⟨"t", "", none, none, true⟩).max_retries = 2 ∧
    (startLoopBody ⟨"t", "", none, none, true⟩).executor = "copilot" ∧
    (startLoopBody ⟨"t", "", none, none, true⟩).dry_run_key = true := by
  have h := c10_loop_body ⟨"t", "", none, none, true⟩ (by decide)
  exact ⟨h.1, h.2 rfl, rfl, rfl⟩

/-- C10 as stated is false for an empty-string `workdir`: the code sends
`null` (JavaScript `||` treats `''` as falsy) where the claim says the
present value is sent. -/
theorem c10_counterexample :
    startLoopBody ⟨"t", "e", some 1, some "", false⟩ ≠
      claimedLoopBody ⟨"t", "e", some 1, some "", false⟩ ∧
    (startLoopBody ⟨"t", "e", some 1, some "", false⟩).workdir = none ∧
    (claimedLoopBody ⟨"t", "e", some 1, some "", false⟩).workdir = some "" := by
  decide

end HeidiSpec
